import Mathlib

/-!
# devicekeeper: the action-request HTTP shim of `router.go`

A shallow embedding of `router.go` and of the library calls it makes, followed
by theorems about the handlers, the logging middleware, the route table and the
shutdown harness.

Conventions of the embedding.

* Go `string` values are Lean `String`s (sequences of Unicode scalar values), so
  the embedding covers the well-formed UTF-8 strings.
* A handler is a function of the response writer, the request and the entropy
  source; it returns the new writer, the new entropy source, the lines it
  handed to the standard logger (in order, without the logger's timestamp
  prefix) and whether it panicked.
* Library code that `router.go` calls (`satori/go.uuid`, `encoding/json`,
  `net/http`, `gorilla/mux`) is modelled next to the call that uses it. Two
  library functions whose text is only copied into the log (`(*url.URL).String`
  and `httputil.DumpRequestOut`) are parameters, bundled in `Lib` together with
  the one point on which releases of `encoding/json` differ (how backspace and
  form feed are escaped); every theorem holds for all values of `Lib`.
* The header map of a response writer holds what handlers put there with
  `w.Header().Set`; the `Content-Type` that `net/http` derives from the body
  when a handler sets none is not part of the embedding.
-/

namespace DeviceKeeper

/-! ## Bytes, hex and UUIDs (`encoding/hex`, `github.com/satori/go.uuid`) -/

/-- A Go `byte`. -/
abbrev Byte := Fin 256

/-- Truncation of a number to a byte. -/
def Byte.ofNat (n : Nat) : Byte := ⟨n % 256, Nat.mod_lt n (by decide)⟩

/-- The table `hextable` of `encoding/hex`. -/
def hextable : List Char := "0123456789abcdef".data

/-- Lower-case hex digit of a nibble, `hextable[n]`. -/
def hexChar (n : Nat) : Char := hextable.getD n '0'

/-- Function `hex.Encode`: two digits per byte, `hextable[v>>4]` then `hextable[v&0x0f]`. -/
def hexEncode (src : List Byte) : List Char :=
  src.flatMap fun v => [hexChar (v.val / 16), hexChar (v.val % 16)]

/-- Type `uuid.UUID`, a `[16]byte`. -/
structure UUID where
  bytes : List Byte
  size : bytes.length = 16
deriving DecidableEq

/-- Method `SetVersion`: `u[6] = (u[6] & 0x0f) | (v << 4)`. -/
def UUID.SetVersion (u : UUID) (v : Nat) : UUID :=
  ⟨u.bytes.set 6 (Byte.ofNat (((u.bytes.getD 6 0).val &&& 0x0f) ||| (v <<< 4))),
    by rw [List.length_set]; exact u.size⟩

/-- Method `SetVariant(VariantRFC4122)`: `u[8] = (u[8] & 0x3f) | 0x80`. -/
def UUID.SetVariantRFC4122 (u : UUID) : UUID :=
  ⟨u.bytes.set 8 (Byte.ofNat (((u.bytes.getD 8 0).val &&& 0x3f) ||| 0x80)),
    by rw [List.length_set]; exact u.size⟩

/-- Method `UUID.String`: the canonical `xxxxxxxx-xxxx-xxxx-xxxx-xxxxxxxxxxxx` form,
hex of `u[0:4]`, `u[4:6]`, `u[6:8]`, `u[8:10]` and `u[10:]` joined by dashes. -/
def UUID.String (u : UUID) : String :=
  String.mk (hexEncode (u.bytes.take 4) ++ '-' ::
    (hexEncode ((u.bytes.drop 4).take 2) ++ '-' ::
    (hexEncode ((u.bytes.drop 6).take 2) ++ '-' ::
    (hexEncode ((u.bytes.drop 8).take 2) ++ '-' ::
    hexEncode (u.bytes.drop 10)))))

/-- The entropy source `crypto/rand.Reader` as seen by the UUID generator: the
outcomes of the reads still to come, each either sixteen bytes or a failure. An
exhausted list reads as a failure. -/
structure Rand where
  pending : List (Option UUID)
deriving DecidableEq

/-- One `io.ReadFull(rand, u[:])`. -/
def Rand.read (g : Rand) : Option UUID × Rand :=
  match g.pending with
  | [] => (none, g)
  | x :: rest => (x, ⟨rest⟩)

/-- Function `uuid.NewV4` on the bytes that were read: version 4, RFC 4122 variant. -/
def UUID.v4 (raw : UUID) : UUID := (raw.SetVersion 4).SetVariantRFC4122

/-- Function `uuid.NewV4`: read sixteen random bytes, stamp version and variant. -/
def NewV4 (g : Rand) : Except String UUID × Rand :=
  match g.read with
  | (none, g1) => (.error "uuid: random source failed", g1)
  | (some raw, g1) => (.ok raw.v4, g1)

/-- Function `uuid.Must`: panic on error (the error of `Except` is the panic). -/
def Must (r : Except String UUID) : Except String UUID := r

/-! ## The data model (`router.go`, lines 19 to 40) -/

/-- Struct `Operation`. -/
structure Operation where
  Name : String
  Serial : String
deriving DecidableEq

/-- Struct `ActionRequest`. -/
structure ActionRequest where
  ID : String
  Action : Operation
deriving DecidableEq

/-- Function `NewActionRequest(serial, name)`: build the operation, draw one UUID,
return the record. The result is the panic of `uuid.Must` when the draw fails. -/
def NewActionRequest (serial : String) (name : String) (g : Rand) :
    Except String ActionRequest × Rand :=
  let op : Operation := { Name := name, Serial := serial }
  match NewV4 g with
  | (r, g1) =>
    match Must r with
    | .error e => (.error e, g1)
    | .ok id => (.ok { ID := id.String, Action := op }, g1)

/-! ## JSON encoding (`encoding/json`, as used by `json.NewEncoder(w).Encode`) -/

/-- Table `htmlSafeSet`: the ASCII characters written without escaping when HTML
escaping is on (the encoder's default). -/
def htmlSafe (c : Char) : Bool :=
  decide (0x20 ≤ c.toNat) && decide (c.toNat < 0x80) && c != '"' && c != '\\' &&
    c != '<' && c != '>' && c != '&'

/-- One character of a JSON string literal as `encoding/json` writes it. The flag
`bf` selects the releases that write backspace and form feed as `\b` and `\f`;
the others write them as `\u0008` and `\u000c`. -/
def escapeChar (bf : Bool) (c : Char) : List Char :=
  if c.toNat < 0x80 then
    if htmlSafe c then [c]
    else if c = '\\' ∨ c = '"' then ['\\', c]
    else if bf = true ∧ c = Char.ofNat 8 then ['\\', 'b']
    else if bf = true ∧ c = Char.ofNat 12 then ['\\', 'f']
    else if c = '\n' then ['\\', 'n']
    else if c = '\r' then ['\\', 'r']
    else if c = '\t' then ['\\', 't']
    else ['\\', 'u', '0', '0', hexChar (c.toNat / 16), hexChar (c.toNat % 16)]
  else if c = Char.ofNat 0x2028 ∨ c = Char.ofNat 0x2029 then
    ['\\', 'u', '2', '0', '2', hexChar (c.toNat % 16)]
  else [c]

/-- A string as a JSON string literal, quotes included. -/
def encodeString (bf : Bool) (s : String) : List Char :=
  '"' :: (s.data.flatMap (escapeChar bf) ++ ['"'])

/-- Struct `Operation` with its tags `json:"name"` and `json:"serial,omitempty"`:
`serial` is left out when the string has length zero. -/
def Operation.encode (bf : Bool) (o : Operation) : List Char :=
  "\x7b\"name\":".data ++ encodeString bf o.Name ++
    (if o.Serial.length = 0 then [] else ",\"serial\":".data ++ encodeString bf o.Serial) ++
    ['}']

/-- Struct `ActionRequest` with its tags `json:"id"` and `json:"action,omitempty"`:
`omitempty` never drops a struct value, so `action` is always written. -/
def ActionRequest.encode (bf : Bool) (a : ActionRequest) : List Char :=
  "\x7b\"id\":".data ++ encodeString bf a.ID ++ ",\"action\":".data ++ a.Action.encode bf ++ ['}']

/-- Function `json.Marshal` on an `*ActionRequest`. -/
def Marshal (bf : Bool) (a : ActionRequest) : String := String.mk (a.encode bf)

/-- Method `(*json.Encoder).Encode`: the JSON text followed by a newline, handed
to the writer in one `Write`. -/
def EncodeText (bf : Bool) (a : ActionRequest) : String := Marshal bf a ++ "\n"

/-! ## JSON decoding (the reader of a response body; RFC 8259) -/

/-- A JSON value. Numbers keep their text. -/
inductive JSON where
  | null
  | bool (b : Bool)
  | num (raw : String)
  | str (s : String)
  | arr (items : List JSON)
  | obj (members : List (String × JSON))

/-- JSON white space. -/
def isWS (c : Char) : Bool := c == ' ' || c == '\t' || c == '\n' || c == '\r'

/-- Drop leading white space. -/
def skipWS : List Char → List Char
  | [] => []
  | c :: cs => if isWS c then skipWS cs else c :: cs

/-- Value of a hex digit, either case. -/
def hexVal (c : Char) : Option Nat :=
  if '0'.toNat ≤ c.toNat ∧ c.toNat ≤ '9'.toNat then some (c.toNat - '0'.toNat)
  else if 'a'.toNat ≤ c.toNat ∧ c.toNat ≤ 'f'.toNat then some (c.toNat - 'a'.toNat + 10)
  else if 'A'.toNat ≤ c.toNat ∧ c.toNat ≤ 'F'.toNat then some (c.toNat - 'A'.toNat + 10)
  else none

/-- Value of the four hex digits of a `\u` escape. -/
def hex4 (a b c d : Char) : Option Nat :=
  match hexVal a, hexVal b, hexVal c, hexVal d with
  | some x, some y, some z, some w => some (((x * 16 + y) * 16 + z) * 16 + w)
  | _, _, _, _ => none

/-- The character a one-letter escape stands for. -/
def simpleEscape (e : Char) : Option Char :=
  if e = '"' then some '"'
  else if e = '\\' then some '\\'
  else if e = '/' then some '/'
  else if e = 'b' then some (Char.ofNat 8)
  else if e = 'f' then some (Char.ofNat 12)
  else if e = 'n' then some '\n'
  else if e = 'r' then some '\r'
  else if e = 't' then some '\t'
  else none

/-- Prepend a decoded character to the rest of a string literal. -/
def pushChar (c : Char) (r : Option (List Char × List Char)) : Option (List Char × List Char) :=
  match r with
  | none => none
  | some (s, rest) => some (c :: s, rest)

/-- The character of a `\u` escape that is not half of a surrogate pair: a lone
surrogate reads as U+FFFD. -/
def unicodeChar (n : Nat) : Char :=
  if 0xD800 ≤ n ∧ n < 0xE000 then Char.ofNat 0xFFFD else Char.ofNat n

/-- The body of a string literal, after its opening quote: the decoded characters
and the input left after the closing quote. The first argument bounds the number
of characters decoded; `scanString` supplies enough. -/
def parseStringBody : Nat → List Char → Option (List Char × List Char)
  | 0, _ => none
  | _ + 1, [] => none
  | fuel + 1, c :: rest =>
    if c = '"' then some ([], rest)
    else if c = '\\' then
      match rest with
      | [] => none
      | e :: rest1 =>
        if e = 'u' then
          match rest1 with
          | a :: b :: x :: y :: rest2 =>
            match hex4 a b x y with
            | none => none
            | some hi =>
              if 0xD800 ≤ hi ∧ hi < 0xDC00 then
                match rest2 with
                | b1 :: u1 :: a2 :: b2 :: x2 :: y2 :: rest3 =>
                  match hex4 a2 b2 x2 y2 with
                  | some lo =>
                    if b1 = '\\' ∧ u1 = 'u' ∧ 0xDC00 ≤ lo ∧ lo < 0xE000 then
                      pushChar (Char.ofNat (0x10000 + (hi - 0xD800) * 0x400 + (lo - 0xDC00)))
                        (parseStringBody fuel rest3)
                    else pushChar (unicodeChar hi) (parseStringBody fuel rest2)
                  | none => pushChar (unicodeChar hi) (parseStringBody fuel rest2)
                | _ => pushChar (unicodeChar hi) (parseStringBody fuel rest2)
              else pushChar (unicodeChar hi) (parseStringBody fuel rest2)
          | _ => none
        else
          match simpleEscape e with
          | none => none
          | some x => pushChar x (parseStringBody fuel rest1)
    else if c.toNat < 0x20 then none
    else pushChar c (parseStringBody fuel rest)

/-- A string literal after its opening quote, with one unit of fuel per input
character. -/
def scanString (cs : List Char) : Option (List Char × List Char) :=
  parseStringBody cs.length cs

/-- Leading decimal digits and the rest. -/
def spanDigits : List Char → List Char × List Char
  | [] => ([], [])
  | c :: cs =>
    if c.isDigit then ((spanDigits cs).1.cons c, (spanDigits cs).2) else ([], c :: cs)

/-- A JSON number: optional minus, integer part without a leading zero, optional
fraction, optional exponent. Returns its text and the rest. -/
def parseNumber (cs : List Char) : Option (List Char × List Char) :=
  let (sign, cs1) :=
    match cs with
    | '-' :: r => (['-'], r)
    | _ => ([], cs)
  let (intPart, cs2) := spanDigits cs1
  if intPart = [] ∨ (intPart.head? = some '0' ∧ intPart.length ≠ 1) then none
  else
    let frac : Option (List Char × List Char) :=
      match cs2 with
      | '.' :: r =>
        let (ds, r1) := spanDigits r
        if ds = [] then none else some ('.' :: ds, r1)
      | _ => some ([], cs2)
    match frac with
    | none => none
    | some (fracPart, cs3) =>
      match cs3 with
      | e :: r =>
        if e = 'e' ∨ e = 'E' then
          let (esign, r1) :=
            match r with
            | '+' :: r0 => (['+'], r0)
            | '-' :: r0 => (['-'], r0)
            | _ => ([], r)
          let (ds, r2) := spanDigits r1
          if ds = [] then none else some (sign ++ intPart ++ fracPart ++ e :: esign ++ ds, r2)
        else some (sign ++ intPart ++ fracPart, cs3)
      | [] => some (sign ++ intPart ++ fracPart, cs3)

mutual
/-- One JSON value, leading white space skipped; the first argument bounds the
number of nested calls. -/
def parseValue : Nat → List Char → Option (JSON × List Char)
  | 0, _ => none
  | fuel + 1, cs =>
    match skipWS cs with
    | [] => none
    | c :: rest =>
      if c = '\x7b' then
        match skipWS rest with
        | '}' :: rest1 => some (JSON.obj [], rest1)
        | _ =>
          match parseMembers fuel rest with
          | none => none
          | some (kv, r) => some (JSON.obj kv, r)
      else if c = '[' then
        match skipWS rest with
        | ']' :: rest1 => some (JSON.arr [], rest1)
        | _ =>
          match parseElements fuel rest with
          | none => none
          | some (vs, r) => some (JSON.arr vs, r)
      else if c = '"' then
        match scanString rest with
        | none => none
        | some (s, r) => some (JSON.str (String.mk s), r)
      else if "true".data.isPrefixOf (c :: rest) then some (JSON.bool true, rest.drop 3)
      else if "false".data.isPrefixOf (c :: rest) then some (JSON.bool false, rest.drop 4)
      else if "null".data.isPrefixOf (c :: rest) then some (JSON.null, rest.drop 3)
      else
        match parseNumber (c :: rest) with
        | none => none
        | some (n, r) => some (JSON.num (String.mk n), r)
/-- The members of an object after its opening brace, up to and including the
closing brace. -/
def parseMembers : Nat → List Char → Option (List (String × JSON) × List Char)
  | 0, _ => none
  | fuel + 1, cs =>
    match skipWS cs with
    | '"' :: rest =>
      match scanString rest with
      | none => none
      | some (k, rest1) =>
        match skipWS rest1 with
        | ':' :: rest2 =>
          match parseValue fuel rest2 with
          | none => none
          | some (v, rest3) =>
            match skipWS rest3 with
            | ',' :: rest4 =>
              match parseMembers fuel rest4 with
              | none => none
              | some (kv, r) => some ((String.mk k, v) :: kv, r)
            | '}' :: rest4 => some ([(String.mk k, v)], rest4)
            | _ => none
        | _ => none
    | _ => none
/-- The elements of an array after its opening bracket, up to and including the
closing bracket. -/
def parseElements : Nat → List Char → Option (List JSON × List Char)
  | 0, _ => none
  | fuel + 1, cs =>
    match parseValue fuel cs with
    | none => none
    | some (v, rest) =>
      match skipWS rest with
      | ',' :: rest1 =>
        match parseElements fuel rest1 with
        | none => none
        | some (vs, r) => some (v :: vs, r)
      | ']' :: rest1 => some ([v], rest1)
      | _ => none
end

/-- A whole JSON text: one value, white space allowed around it, nothing else. -/
def JSON.parse (text : String) : Option JSON :=
  match parseValue (text.length + 1) text.data with
  | none => none
  | some (v, rest) => if skipWS rest = [] then some v else none

/-- Member of an object by key. -/
def JSON.field (k : String) : JSON → Option JSON
  | JSON.obj members => members.lookup k
  | _ => none

/-- The string a JSON string value holds. -/
def JSON.asString : JSON → Option String
  | JSON.str s => some s
  | _ => none

/-! ## Requests, response writers and handlers (`net/http`) -/

/-- Type `url.URL`, the parts a server-side request carries. -/
structure URL where
  Path : String
  RawQuery : String
deriving DecidableEq

/-- Type `http.Request`. `Vars` is the map of route variables that `gorilla/mux`
keeps in the request context; `mux.Vars(r)` reads it. -/
structure Request where
  Method : String
  URL : URL
  RemoteAddr : String
  Header : List (String × String)
  Body : String
  Vars : List (String × String)
deriving DecidableEq

/-- Library functions taken as parameters: the text of `(*url.URL).String`, the
text that `log.Println(httputil.DumpRequestOut(r, true))` prints for a request
(without the final newline), and whether `encoding/json` writes `\b` and `\f`. -/
structure Lib where
  urlString : URL → String
  dumpRequestOut : Request → String
  escapeBF : Bool

/-- A Go map read `m[k]` on a `map[string]string`: the zero value `""` when the key
is absent (also on a nil map). -/
def mapGet (m : List (String × String)) (k : String) : String :=
  (m.lookup k).getD ""

/-- Method `Header.Set`. -/
def headerSet (h : List (String × String)) (k v : String) : List (String × String) :=
  (k, v) :: h.filter fun kv => kv.1 != k

/-- The state of an `http.ResponseWriter`: the header map, whether the status line
has been written, the status, and the bytes of the body written so far. -/
structure ResponseWriter where
  header : List (String × String)
  wroteHeader : Bool
  status : Nat
  body : String
deriving DecidableEq

/-- The writer the server hands to the root handler. -/
def ResponseWriter.fresh : ResponseWriter :=
  { header := [], wroteHeader := false, status := 0, body := "" }

/-- Method `WriteHeader`: the first call fixes the status; later calls are ignored. -/
def ResponseWriter.WriteHeader (w : ResponseWriter) (code : Nat) : ResponseWriter :=
  if w.wroteHeader then w else { w with wroteHeader := true, status := code }

/-- Method `Write`: writes the status line with 200 first if no status was written. -/
def ResponseWriter.Write (w : ResponseWriter) (p : String) : ResponseWriter :=
  let w1 := w.WriteHeader 200
  { w1 with body := w1.body ++ p }

/-- The response the client receives. -/
structure Response where
  status : Nat
  header : List (String × String)
  body : String
deriving DecidableEq

/-- What the server sends once the handler has returned: a handler that never wrote
a status gets 200. -/
def ResponseWriter.response (w : ResponseWriter) : Response :=
  { status := (w.WriteHeader 200).status, header := w.header, body := w.body }

/-- The outcome of running a handler: the writer and entropy source it leaves, the
lines it logged, and the panic if it panicked. -/
structure Exec where
  w : ResponseWriter
  rand : Rand
  log : List String
  panic : Option String
deriving DecidableEq

/-- Type `http.Handler`. -/
abbrev Handler := ResponseWriter → Request → Rand → Exec

/-! ## The handlers and the middleware (`router.go`, lines 42 to 61) -/

/-- Function `GetActionRequest`. -/
def GetActionRequest (L : Lib) : Handler := fun w _r g =>
  match NewActionRequest "testSerial" "rebootDevice" g with
  | (.error e, g1) => { w := w, rand := g1, log := [], panic := some e }
  | (.ok action, g1) =>
    { w := w.Write (EncodeText L.escapeBF action),
      rand := g1,
      log := ["Request Action #" ++ action.ID ++ " \n"],
      panic := none }

/-- Function `DeleteActionRequest`. -/
def DeleteActionRequest (L : Lib) : Handler := fun w r g =>
  let params := r.Vars
  let id := mapGet params "ID"
  { w := w.WriteHeader 200,
    rand := g,
    log := [L.dumpRequestOut r ++ "\n", "Action #" ++ id ++ " can be removed\n"],
    panic := none }

/-- The line `logRequest` prints: `"%s %s %s\n"` of remote address, method, URL. -/
def requestLine (L : Lib) (r : Request) : String :=
  r.RemoteAddr ++ " " ++ r.Method ++ " " ++ L.urlString r.URL ++ "\n"

/-- Function `logRequest`. -/
def logRequest (L : Lib) (handler : Handler) : Handler := fun w r g =>
  let e := handler w r g
  { e with log := requestLine L r :: e.log }

/-! ## The router (`gorilla/mux`) -/

/-- A piece of a path template: literal text or a variable `{name}`, which matches
`[^/]+`. -/
inductive Part where
  | lit (text : List Char)
  | var (name : String)
deriving DecidableEq

/-- Split a path template at its braces. The flag says whether the scan is inside
braces; the accumulator holds the current piece reversed. Unbalanced braces are
an error. -/
def splitTemplate : List Char → Bool → List Char → Option (List Part)
  | [], false, acc => some (if acc = [] then [] else [Part.lit acc.reverse])
  | [], true, _ => none
  | c :: cs, false, acc =>
    if c = '\x7b' then
      match splitTemplate cs true [] with
      | none => none
      | some ps => some (if acc = [] then ps else Part.lit acc.reverse :: ps)
    else if c = '\x7d' then none
    else splitTemplate cs false (c :: acc)
  | c :: cs, true, acc =>
    if c = '\x7d' then
      match splitTemplate cs false [] with
      | none => none
      | some ps => some (Part.var (String.mk acc.reverse) :: ps)
    else if c = '\x7b' then none
    else splitTemplate cs true (c :: acc)

/-- The pieces of a path template. -/
def parseTemplate (tpl : String) : Option (List Part) := splitTemplate tpl.data false []

/-- Anchored match of a path against template pieces, with the variables bound. A
variable takes the longest run of non-slash characters that lets the rest match. -/
def matchParts : List Part → List Char → Option (List (String × String))
  | [], cs => if cs = [] then some [] else none
  | Part.lit t :: ps, cs =>
    if t.isPrefixOf cs then matchParts ps (cs.drop t.length) else none
  | Part.var n :: ps, cs =>
    let run := cs.takeWhile fun c => c != '/'
    (List.range run.length).reverse.findSome? fun k =>
      match matchParts ps (cs.drop (k + 1)) with
      | none => none
      | some vs => some ((n, String.mk (cs.take (k + 1))) :: vs)

/-- The path matcher of a route: the variables when the path matches the template. -/
def matchPath (tpl : String) (path : String) : Option (List (String × String)) :=
  match parseTemplate tpl with
  | none => none
  | some ps => matchParts ps path.data

/-- A route: path template, allowed methods, handler. -/
structure Route where
  template : String
  methods : List String
  handler : Handler

/-- The errors a match can record. -/
inductive MatchErr where
  | methodMismatch
  | notFound
deriving DecidableEq

/-- Type `mux.RouteMatch`. -/
structure RouteMatch where
  handler : Option Handler
  vars : List (String × String)
  matchErr : Option MatchErr

/-- Method `(*Route).Match` for a route with a path matcher followed by a method
matcher. A path mismatch returns false at once; a method mismatch alone records
`ErrMethodMismatch`; a full match clears an earlier `ErrMethodMismatch` and
installs this route's handler. -/
def Route.Match (rt : Route) (req : Request) (m : RouteMatch) : Bool × RouteMatch :=
  match matchPath rt.template req.URL.Path with
  | none =>
    (false, if m.matchErr = some MatchErr.notFound then { m with matchErr := none } else m)
  | some vars =>
    if ¬ rt.methods.contains req.Method then
      (false, { m with matchErr := some MatchErr.methodMismatch })
    else
      let m1 : RouteMatch :=
        if m.matchErr = some MatchErr.methodMismatch then
          { m with matchErr := none, handler := some rt.handler }
        else m
      let m2 : RouteMatch :=
        match m1.handler with
        | none => { m1 with handler := some rt.handler }
        | some _ => m1
      (true, { m2 with vars := vars })

/-- The loop of `(*Router).Match` over the routes, in registration order. -/
def matchRoutes : List Route → Request → RouteMatch → Bool × RouteMatch
  | [], _, m => (false, m)
  | rt :: rest, req, m =>
    match rt.Match req m with
    | (true, m1) => (true, m1)
    | (false, m1) => matchRoutes rest req m1

/-- Method `(*Router).Match` with no custom not-found or method-not-allowed handler. -/
def routerMatch (routes : List Route) (req : Request) (m : RouteMatch) : Bool × RouteMatch :=
  match matchRoutes routes req m with
  | (true, m1) => (true, m1)
  | (false, m1) =>
    if m1.matchErr = some MatchErr.methodMismatch then (false, m1)
    else (false, { m1 with matchErr := some MatchErr.notFound })

/-- Split a path at its slashes. The accumulator holds the current element reversed. -/
def splitSlash : List Char → List Char → List (List Char)
  | [], acc => [acc.reverse]
  | c :: cs, acc => if c = '/' then acc.reverse :: splitSlash cs [] else splitSlash cs (c :: acc)

/-- Function `path.Clean` on a rooted path: empty and `.` elements are dropped, a
`..` element removes the element before it (or nothing at the root), and the
elements left are joined by single slashes after the leading one. -/
def pathClean (p : List Char) : List Char :=
  let keep := (splitSlash p []).foldl
    (fun st seg =>
      if seg = [] ∨ seg = ['.'] then st
      else if seg = ['.', '.'] then st.dropLast
      else st ++ [seg]) []
  '/' :: (keep.intersperse ['/']).flatten

/-- Function `cleanPath` of `gorilla/mux`: the canonical form of a path, with the
trailing slash kept. -/
def cleanPath (p : String) : String :=
  if p = "" then "/"
  else
    let p1 := if p.data.head? = some '/' then p.data else '/' :: p.data
    let np := pathClean p1
    if p1.getLast? = some '/' ∧ np ≠ ['/'] then String.mk (np ++ ['/']) else String.mk np

/-- Function `http.Error`. -/
def httpError (w : ResponseWriter) (msg : String) (code : Nat) : ResponseWriter :=
  let h1 := headerSet w.header "Content-Type" "text/plain; charset=utf-8"
  let h2 := headerSet h1 "X-Content-Type-Options" "nosniff"
  (({ w with header := h2 } : ResponseWriter).WriteHeader code).Write (msg ++ "\n")

/-- Handler `http.NotFoundHandler()`. -/
def NotFoundHandler : Handler := fun w _r g =>
  { w := httpError w "404 page not found" 404, rand := g, log := [], panic := none }

/-- Handler `methodNotAllowedHandler()` of `gorilla/mux`. -/
def methodNotAllowedHandler : Handler := fun w _r g =>
  { w := w.WriteHeader 405, rand := g, log := [], panic := none }

/-- Method `(*Router).ServeHTTP`: a path that is not in canonical form is answered
with a redirect to its canonical form; otherwise the matched handler runs with
the route variables set, or the default method-not-allowed or not-found handler. -/
def routerServeHTTP (L : Lib) (routes : List Route) : Handler := fun w req g =>
  let p := cleanPath req.URL.Path
  if p ≠ req.URL.Path then
    let loc := L.urlString { req.URL with Path := p }
    { w := ({ w with header := headerSet w.header "Location" loc } : ResponseWriter).WriteHeader 301,
      rand := g, log := [], panic := none }
  else
    let m0 : RouteMatch := { handler := none, vars := [], matchErr := none }
    match routerMatch routes req m0 with
    | (true, m) =>
      match m.handler with
      | some h => h w { req with Vars := m.vars } g
      | none => NotFoundHandler w { req with Vars := m.vars } g
    | (false, m) =>
      if m.matchErr = some MatchErr.methodMismatch then methodNotAllowedHandler w req g
      else NotFoundHandler w req g

/-- The route table of `main` (lines 68 to 70) over two handlers. -/
def routesOf (get del : Handler) : List Route :=
  [ { template := "/action/{id}", methods := ["GET"], handler := get },
    { template := "/action/{id}", methods := ["DELETE"], handler := del } ]

/-- The route table of `main`. -/
def routes (L : Lib) : List Route := routesOf (GetActionRequest L) (DeleteActionRequest L)

/-- The server's root handler, `logRequest(router)` (line 79), over two handlers. -/
def serveWith (L : Lib) (get del : Handler) : Handler :=
  logRequest L (routerServeHTTP L (routesOf get del))

/-- The server's root handler, `logRequest(router)`. -/
def serve (L : Lib) : Handler := serveWith L (GetActionRequest L) (DeleteActionRequest L)

/-! ## The server harness (`router.go`, `main`, lines 63 to 108) -/

/-- Type `time.Duration`, in nanoseconds. -/
abbrev Duration := Int

/-- Constant `time.Second`. -/
def Second : Duration := 1000000000

/-- The default of the flag `-graceful-timeout` (line 65): `time.Second*15`. -/
def defaultWait : Duration := Second * 15

/-- The command line as `flag.Parse` sees it: no `-graceful-timeout`, one with a
duration, or arguments that do not parse. -/
inductive Flags where
  | absent
  | given (wait : Duration)
  | malformed
deriving DecidableEq

/-- The states of the harness. -/
inductive Phase where
  | Starting
  | Serving
  | Draining
  | Stopped
deriving DecidableEq

/-- The signals the process can get: `os.Interrupt`, the one `signal.Notify`
registers (line 92), and the others, which keep their default action. -/
inductive Signal where
  | interrupt
  | other
deriving DecidableEq

/-- What the environment does to the running process: `ListenAndServe` returns an
error in its goroutine (a failed bind, a serve error, or the server being shut
down); a signal is delivered; `srv.Shutdown` returns, `need` nanoseconds being
the time after which it would find every connection idle. -/
inductive Event where
  | serveReturned (err : String)
  | signal (s : Signal)
  | shutdownReturns (need : Nat)
deriving DecidableEq

/-- The harness: its phase, the grace duration `wait`, the lines logged, the exit
code once the process has exited, whether a signal killed it, the timeout of the
context made at line 98, and how long `srv.Shutdown` ran. -/
structure Harness where
  phase : Phase
  wait : Duration
  log : List String
  exit : Option Nat
  killed : Bool
  ctxTimeout : Option Duration
  drainTime : Option Nat
deriving DecidableEq

/-- Method `(*http.Server).Shutdown` under a context that expires after `timeout`:
it returns nil at once when no connection is active, nil when the connections
become idle before the deadline, and the context's error at the deadline
otherwise. The result is the time it ran and the error. -/
def Shutdown (timeout : Duration) (need : Nat) : Nat × Option String :=
  if need = 0 then (0, none)
  else if (need : Int) < timeout then (need, none)
  else (timeout.toNat, some "context deadline exceeded")

/-- Lines 64 to 95: parse the flags, build the server, start the serving goroutine,
register for `os.Interrupt` and block on the channel. Arguments that do not parse
end the process with code 2 (`flag.ExitOnError`). -/
def boot (f : Flags) : Harness :=
  match f with
  | Flags.malformed =>
    { phase := Phase.Starting, wait := defaultWait, log := [], exit := some 2, killed := false,
      ctxTimeout := none, drainTime := none }
  | Flags.absent =>
    { phase := Phase.Serving, wait := defaultWait, log := [], exit := none, killed := false,
      ctxTimeout := none, drainTime := none }
  | Flags.given d =>
    { phase := Phase.Serving, wait := d, log := [], exit := none, killed := false,
      ctxTimeout := none, drainTime := none }

/-- Whether the process is still running. -/
def Harness.alive (h : Harness) : Bool := h.exit.isNone && !h.killed

/-- One event. The goroutine logs the error `ListenAndServe` returned (lines 84 to
86) and ends, whatever the main flow is doing. An interrupt wakes the main flow
when it is blocked on the channel (line 95); it then makes the context and calls
`srv.Shutdown` (lines 98 to 102). When `Shutdown` returns its error is dropped,
`shutting down` is logged and the process exits with code 0 (lines 106, 107).
Any other signal kills the process. -/
def step (h : Harness) (e : Event) : Harness :=
  if ¬ h.alive then h
  else
    match e with
    | Event.serveReturned err => { h with log := h.log ++ [err ++ "\n"] }
    | Event.signal Signal.other => { h with killed := true }
    | Event.signal Signal.interrupt =>
      if h.phase = Phase.Serving then
        { h with phase := Phase.Draining, ctxTimeout := some h.wait }
      else h
    | Event.shutdownReturns need =>
      match h.phase, h.ctxTimeout with
      | Phase.Draining, some t =>
        let r := Shutdown t need
        { h with phase := Phase.Stopped, drainTime := some r.1,
                 log := h.log ++ ["shutting down\n"], exit := some 0 }
      | _, _ => h

/-- A run of the process: the flags, then the events in order. -/
def run (f : Flags) (evs : List Event) : Harness := evs.foldl step (boot f)

/-! ## The reader's view of an encoded record, and fixtures for closed examples -/

/-- The JSON value an `Operation` is read back as: `name` always, `serial` unless it
has length zero. -/
def Operation.toJSON (o : Operation) : JSON :=
  JSON.obj (("name", JSON.str o.Name) ::
    (if o.Serial.length = 0 then [] else [("serial", JSON.str o.Serial)]))

/-- The JSON value an `ActionRequest` is read back as: `id`, then `action`. -/
def ActionRequest.toJSON (a : ActionRequest) : JSON :=
  JSON.obj [("id", JSON.str a.ID), ("action", a.Action.toJSON)]

/-- The record `GetActionRequest` builds around an identifier. -/
def getRecord (id : String) : ActionRequest :=
  { ID := id, Action := { Name := "rebootDevice", Serial := "testSerial" } }

/-- A library instance for closed examples: the URL prints as its path and query,
the request dump as a fixed text, `\b` and `\f` are written as `\u` escapes. -/
def exampleLib : Lib :=
  { urlString := fun u => if u.RawQuery = "" then u.Path else u.Path ++ "?" ++ u.RawQuery,
    dumpRequestOut := fun _ => "[] unsupported protocol scheme \"\"",
    escapeBF := false }

/-- Sixteen zero bytes, as one read of the entropy source. -/
def zeroBytes : UUID := ⟨List.replicate 16 0, by decide⟩

/-- A request with the given method and path from a fixed client. -/
def exampleRequest (method path : String) : Request :=
  { Method := method, URL := { Path := path, RawQuery := "" }, RemoteAddr := "10.0.0.7:51234",
    Header := [], Body := "", Vars := [] }

/-- The events of a run that is interrupted once: serve errors, the interrupt, more
serve errors while draining, then the return of `srv.Shutdown`. -/
def interruptedRun (before during : List String) (need : Nat) : List Event :=
  before.map Event.serveReturned ++
    Event.signal Signal.interrupt ::
      (during.map Event.serveReturned ++ [Event.shutdownReturns need])

/-! ## Lemmas: string literals are read back as written -/

theorem parseStringBody_quote (f : Nat) (tail : List Char) :
    parseStringBody (f + 1) ('"' :: tail) = some ([], tail) := by
  simp [parseStringBody]

theorem parseStringBody_plain (f : Nat) (c : Char) (tail : List Char)
    (h1 : c ≠ '"') (h2 : c ≠ '\\') (h3 : ¬ c.toNat < 0x20) :
    parseStringBody (f + 1) (c :: tail) = pushChar c (parseStringBody f tail) := by
  simp [parseStringBody, h1, h2, h3]

theorem parseStringBody_simple (f : Nat) (e x : Char) (tail : List Char)
    (he : e ≠ 'u') (hx : simpleEscape e = some x) :
    parseStringBody (f + 1) ('\\' :: e :: tail) = pushChar x (parseStringBody f tail) := by
  simp [parseStringBody, he, hx]

theorem parseStringBody_u (f : Nat) (a b x y : Char) (tail : List Char) (n : Nat)
    (h : hex4 a b x y = some n) (hn : n < 0xD800) :
    parseStringBody (f + 1) ('\\' :: 'u' :: a :: b :: x :: y :: tail) =
      pushChar (Char.ofNat n) (parseStringBody f tail) := by
  have h1 : ¬ (0xD800 ≤ n ∧ n < 0xDC00) := by omega
  have h2 : ¬ (0xD800 ≤ n ∧ n < 0xE000) := by omega
  simp [parseStringBody, h, h1, h2, unicodeChar]

theorem hex4_low : ∀ n, n < 128 → hex4 '0' '0' (hexChar (n / 16)) (hexChar (n % 16)) = some n := by
  decide

theorem escapeChar_parse (bf : Bool) (c : Char) (f : Nat) (tail : List Char) :
    parseStringBody (f + 1) (escapeChar bf c ++ tail) = pushChar c (parseStringBody f tail) := by
  unfold escapeChar
  by_cases hlt : c.toNat < 0x80
  · rw [if_pos hlt]
    by_cases hs : htmlSafe c = true
    · rw [if_pos hs]
      simp only [htmlSafe, Bool.and_eq_true, decide_eq_true_eq, bne_iff_ne, ne_eq] at hs
      exact parseStringBody_plain f c tail hs.1.1.1.1.2 hs.1.1.1.2 (by omega)
    · rw [if_neg hs]
      by_cases hq : c = '\\' ∨ c = '"'
      · rw [if_pos hq]
        rcases hq with rfl | rfl
        · exact parseStringBody_simple f _ _ tail (by decide) (by decide)
        · exact parseStringBody_simple f _ _ tail (by decide) (by decide)
      · rw [if_neg hq]
        by_cases h8 : bf = true ∧ c = Char.ofNat 8
        · rw [if_pos h8]
          rw [h8.2]
          exact parseStringBody_simple f _ _ tail (by decide) (by decide)
        · rw [if_neg h8]
          by_cases h12 : bf = true ∧ c = Char.ofNat 12
          · rw [if_pos h12]
            rw [h12.2]
            exact parseStringBody_simple f _ _ tail (by decide) (by decide)
          · rw [if_neg h12]
            by_cases hn : c = '\n'
            · rw [if_pos hn, hn]
              exact parseStringBody_simple f _ _ tail (by decide) (by decide)
            · rw [if_neg hn]
              by_cases hr : c = '\r'
              · rw [if_pos hr, hr]
                exact parseStringBody_simple f _ _ tail (by decide) (by decide)
              · rw [if_neg hr]
                by_cases ht : c = '\t'
                · rw [if_pos ht, ht]
                  exact parseStringBody_simple f _ _ tail (by decide) (by decide)
                · rw [if_neg ht]
                  have := parseStringBody_u f '0' '0' (hexChar (c.toNat / 16))
                    (hexChar (c.toNat % 16)) tail c.toNat (hex4_low _ hlt) (by omega)
                  rw [Char.ofNat_toNat] at this
                  exact this
  · rw [if_neg hlt]
    by_cases hu : c = Char.ofNat 0x2028 ∨ c = Char.ofNat 0x2029
    · rw [if_pos hu]
      rcases hu with rfl | rfl
      · exact parseStringBody_u f '2' '0' '2' _ tail 0x2028 (by decide) (by decide)
      · exact parseStringBody_u f '2' '0' '2' _ tail 0x2029 (by decide) (by decide)
    · rw [if_neg hu]
      refine parseStringBody_plain f c tail ?_ ?_ (by omega)
      · rintro rfl
        exact hlt (by decide)
      · rintro rfl
        exact hlt (by decide)

theorem escape_length (bf : Bool) (s : List Char) :
    s.length ≤ (s.flatMap (escapeChar bf)).length := by
  induction s with
  | nil => simp
  | cons c s ih =>
    have hc : 1 ≤ (escapeChar bf c).length := by
      unfold escapeChar
      split_ifs <;> simp
    simp only [List.flatMap_cons, List.length_append, List.length_cons]
    omega

theorem parseStringBody_escaped (bf : Bool) (s : List Char) :
    ∀ (f : Nat) (tail : List Char), s.length + 1 ≤ f →
      parseStringBody f (s.flatMap (escapeChar bf) ++ '"' :: tail) = some (s, tail) := by
  induction s with
  | nil =>
    intro f tail hf
    obtain ⟨k, rfl⟩ : ∃ k, f = k + 1 := ⟨f - 1, by omega⟩
    simpa using parseStringBody_quote k tail
  | cons c s ih =>
    intro f tail hf
    obtain ⟨k, rfl⟩ : ∃ k, f = k + 1 := ⟨f - 1, by omega⟩
    have hk : s.length + 1 ≤ k := by simpa using hf
    rw [List.flatMap_cons, List.append_assoc, escapeChar_parse, ih k tail hk]
    rfl

theorem scanString_escaped (bf : Bool) (s : List Char) (tail : List Char) :
    scanString (s.flatMap (escapeChar bf) ++ '"' :: tail) = some (s, tail) := by
  unfold scanString
  apply parseStringBody_escaped
  have := escape_length bf s
  simp only [List.length_append, List.length_cons]
  omega

/-! ## Lemmas: an encoded record is read back as its JSON value -/

theorem parseValue_string (bf : Bool) (s : String) (f : Nat) (tail : List Char) :
    parseValue (f + 1) (encodeString bf s ++ tail) = some (JSON.str s, tail) := by
  have h := scanString_escaped bf s.data tail
  simp only [encodeString, List.cons_append, List.append_assoc, List.singleton_append]
  rw [parseValue]
  simp [skipWS, isWS, h]

theorem parseValue_operation (bf : Bool) (o : Operation) (f : Nat) (tail : List Char) :
    parseValue (f + 4) (o.encode bf ++ tail) = some (o.toJSON, tail) := by
  have hn := parseValue_string bf o.Name
  have hs := parseValue_string bf o.Serial
  unfold Operation.encode Operation.toJSON
  by_cases h0 : o.Serial.length = 0
  · simp only [h0, if_true]
    rw [parseValue]
    simp [skipWS, isWS, parseMembers, scanString, parseStringBody, pushChar, hn]
  · simp only [h0, if_false]
    rw [parseValue]
    simp [skipWS, isWS, parseMembers, scanString, parseStringBody, pushChar, hn, hs]

theorem parseValue_actionRequest (bf : Bool) (a : ActionRequest) (f : Nat) (tail : List Char) :
    parseValue (f + 7) (a.encode bf ++ tail) = some (a.toJSON, tail) := by
  have hi := parseValue_string bf a.ID
  have ho := parseValue_operation bf a.Action
  unfold ActionRequest.encode ActionRequest.toJSON
  rw [parseValue]
  simp [skipWS, isWS, parseMembers, scanString, parseStringBody, pushChar, hi, ho]

theorem encode_length (bf : Bool) (a : ActionRequest) : 6 ≤ (a.encode bf).length := by
  unfold ActionRequest.encode
  simp only [List.length_append, List.length_cons, List.length_nil]
  omega

theorem parse_EncodeText (bf : Bool) (a : ActionRequest) :
    JSON.parse (EncodeText bf a) = some a.toJSON := by
  have hlen := encode_length bf a
  obtain ⟨k, hk⟩ : ∃ k, (EncodeText bf a).length + 1 = k + 7 :=
    ⟨(EncodeText bf a).length - 6, by
      simp only [EncodeText, Marshal, String.length_append, String.length_mk]
      omega⟩
  have hd : (EncodeText bf a).data = a.encode bf ++ ['\n'] := by
    simp [EncodeText, Marshal]
  unfold JSON.parse
  rw [hk, hd, parseValue_actionRequest]
  simp [skipWS, isWS]

/-! ## Lemmas: UUID strings and the body of a GET response -/

theorem hexChar_safe : ∀ n, n < 16 → htmlSafe (hexChar n) = true := by decide

theorem escapeChar_safe (bf : Bool) (c : Char) (h : htmlSafe c = true) : escapeChar bf c = [c] := by
  have hlt : c.toNat < 0x80 := by
    simp only [htmlSafe, Bool.and_eq_true, decide_eq_true_eq] at h
    exact h.1.1.1.1.1.2
  simp [escapeChar, hlt, h]

theorem escape_safe (bf : Bool) (s : List Char) (h : ∀ c ∈ s, htmlSafe c = true) :
    s.flatMap (escapeChar bf) = s := by
  induction s with
  | nil => rfl
  | cons c s ih =>
    rw [List.flatMap_cons, escapeChar_safe bf c (h c (List.mem_cons_self _ _)),
      ih (fun d hd => h d (List.mem_cons_of_mem _ hd))]
    rfl

theorem hexEncode_safe (src : List Byte) : ∀ c ∈ hexEncode src, htmlSafe c = true := by
  intro c hc
  simp only [hexEncode, List.mem_flatMap, List.mem_cons, List.mem_singleton, List.not_mem_nil,
    or_false] at hc
  obtain ⟨v, -, rfl | rfl⟩ := hc
  · exact hexChar_safe _ (by have := v.isLt; omega)
  · exact hexChar_safe _ (by omega)

theorem hexEncode_length (src : List Byte) : (hexEncode src).length = 2 * src.length := by
  induction src with
  | nil => rfl
  | cons v s ih =>
    simp only [hexEncode, List.flatMap_cons, List.length_append, List.length_cons,
      List.length_nil] at ih ⊢
    omega

theorem UUID_String_safe (u : UUID) : ∀ c ∈ u.String.data, htmlSafe c = true := by
  intro c hc
  simp only [UUID.String, List.mem_append, List.mem_cons] at hc
  have hd : htmlSafe '-' = true := by decide
  rcases hc with h | rfl | h | rfl | h | rfl | h | rfl | h
  all_goals first | exact hd | exact hexEncode_safe _ _ h

theorem UUID_String_length (u : UUID) : u.String.length = 36 := by
  have hs := u.size
  simp only [UUID.String, String.length_mk, List.length_append, List.length_cons,
    hexEncode_length, List.length_take, List.length_drop, hs]
  omega

theorem UUID_String_ne_empty (u : UUID) : u.String ≠ "" := by
  intro h
  have := UUID_String_length u
  rw [h] at this
  simp at this

theorem encodeString_safe (bf : Bool) (s : String) (h : ∀ c ∈ s.data, htmlSafe c = true) :
    encodeString bf s = '"' :: (s.data ++ ['"']) := by
  rw [encodeString, escape_safe bf s.data h]

theorem Marshal_getRecord (bf : Bool) (u : UUID) :
    Marshal bf (getRecord u.String) =
      "\x7b\"id\":\"" ++ u.String ++
        "\",\"action\":\x7b\"name\":\"rebootDevice\",\"serial\":\"testSerial\"\x7d\x7d" := by
  have h1 := encodeString_safe bf u.String (UUID_String_safe u)
  have h2 : encodeString bf "rebootDevice" = "\"rebootDevice\"".data := by cases bf <;> decide
  have h3 : encodeString bf "testSerial" = "\"testSerial\"".data := by cases bf <;> decide
  apply String.ext
  simp only [Marshal, getRecord, ActionRequest.encode, Operation.encode, h1, h2, h3,
    String.data_append]
  simp
  decide

theorem NewActionRequest_draw (serial name : String) (raw : UUID) (rest : List (Option UUID)) :
    NewActionRequest serial name ⟨some raw :: rest⟩ =
      (.ok { ID := raw.v4.String, Action := { Name := name, Serial := serial } }, ⟨rest⟩) := rfl

theorem String_length_zero_iff (s : String) : s.length = 0 ↔ s = "" := by
  constructor
  · intro h
    apply String.ext
    exact List.length_eq_zero.mp h
  · rintro rfl
    rfl

theorem GetActionRequest_body (L : Lib) (r : Request) (raw : UUID) (rest : List (Option UUID)) :
    (GetActionRequest L ResponseWriter.fresh r ⟨some raw :: rest⟩).w.body =
      Marshal L.escapeBF (getRecord raw.v4.String) ++ "\n" := by
  simp [GetActionRequest, NewActionRequest_draw, ResponseWriter.Write, ResponseWriter.WriteHeader,
    ResponseWriter.fresh, getRecord, EncodeText]

/-! ## Lemmas: route matching and dispatch -/

theorem parseTemplate_action :
    parseTemplate "/action/{id}" = some [Part.lit "/action/".data, Part.var "id"] := by
  decide

theorem findSome_reverse_range (n : Nat) (f : Nat → Option α) (a : α)
    (hlast : f n = some a) : ((List.range (n + 1)).reverse.findSome? f) = some a := by
  rw [List.range_succ, List.reverse_append]
  simp [hlast]

theorem matchParts_var (n : String) (cs : List Char) :
    matchParts [Part.var n] cs =
      if cs ≠ [] ∧ '/' ∉ cs then some [(n, String.mk cs)] else none := by
  unfold matchParts
  simp only
  by_cases h : cs ≠ [] ∧ '/' ∉ cs
  · rw [if_pos h]
    obtain ⟨hne, hs⟩ := h
    have hrun : cs.takeWhile (fun c => c != '/') = cs := by
      rw [List.takeWhile_eq_self_iff]
      intro c hc
      simp only [bne_iff_ne, ne_eq]
      rintro rfl
      exact hs hc
    rw [hrun]
    obtain ⟨m, hm⟩ : ∃ m, cs.length = m + 1 :=
      ⟨cs.length - 1, by have := List.length_pos.mpr hne; omega⟩
    rw [hm]
    apply findSome_reverse_range
    have hd : cs.drop (m + 1) = [] := by rw [← hm]; exact List.drop_length cs
    have ht : cs.take (m + 1) = cs := by rw [← hm]; exact List.take_length cs
    simp [hd, ht, matchParts]
  · rw [if_neg h]
    rw [List.findSome?_eq_none_iff]
    intro k hk
    have hk' : k < (cs.takeWhile (fun c => c != '/')).length := by
      simpa using hk
    have hle : (cs.takeWhile (fun c => c != '/')).length ≤ cs.length :=
      (List.takeWhile_prefix _).length_le
    have hdrop : cs.drop (k + 1) ≠ [] := by
      intro hd
      have hlen : cs.length ≤ k + 1 := List.drop_eq_nil_iff.mp hd
      have heq : (cs.takeWhile (fun c => c != '/')).length = cs.length := by omega
      have hrun : cs.takeWhile (fun c => c != '/') = cs := by
        have hpre : cs.takeWhile (fun c => c != '/') <+: cs := List.takeWhile_prefix _
        exact hpre.eq_of_length heq
      apply h
      refine ⟨?_, ?_⟩
      · intro hnil
        rw [hnil] at hk'
        simp at hk'
      · intro hmem
        rw [List.takeWhile_eq_self_iff] at hrun
        have := hrun '/' hmem
        simp at this
    simp [matchParts, hdrop]

theorem matchPath_action (p : String) :
    matchPath "/action/{id}" p =
      if "/action/".data.isPrefixOf p.data = true ∧ p.data.drop 8 ≠ [] ∧ '/' ∉ p.data.drop 8
      then some [("id", String.mk (p.data.drop 8))] else none := by
  unfold matchPath
  rw [parseTemplate_action]
  simp only
  rw [matchParts]
  by_cases hp : "/action/".data.isPrefixOf p.data = true
  · have h8 : "/action/".data.length = 8 := by decide
    rw [if_pos hp, matchParts_var, h8]
    by_cases h : p.data.drop 8 ≠ [] ∧ '/' ∉ p.data.drop 8
    · rw [if_pos h, if_pos ⟨hp, h⟩]
    · rw [if_neg h, if_neg (fun hh => h hh.2)]
  · rw [if_neg hp, if_neg (fun hh => hp hh.1)]

theorem routerServeHTTP_dispatch (L : Lib) (get del : Handler) (w : ResponseWriter) (r : Request)
    (g : Rand) (hclean : cleanPath r.URL.Path = r.URL.Path) :
    routerServeHTTP L (routesOf get del) w r g =
      match matchPath "/action/{id}" r.URL.Path with
      | none => NotFoundHandler w r g
      | some vars =>
        if r.Method = "GET" then get w { r with Vars := vars } g
        else if r.Method = "DELETE" then del w { r with Vars := vars } g
        else methodNotAllowedHandler w r g := by
  unfold routerServeHTTP
  simp only [hclean, ne_eq, not_true_eq_false, if_false]
  cases hm : matchPath "/action/{id}" r.URL.Path with
  | none =>
    simp [routerMatch, matchRoutes, Route.Match, routesOf, hm]
  | some vars =>
    by_cases hg : r.Method = "GET"
    · simp [routerMatch, matchRoutes, Route.Match, routesOf, hm, hg]
    · by_cases hd : r.Method = "DELETE"
      · simp [routerMatch, matchRoutes, Route.Match, routesOf, hm, hd]
      · simp [routerMatch, matchRoutes, Route.Match, routesOf, hm, hg, hd]

/-! ## Lemmas: the harness -/

theorem Shutdown_bounded (t : Duration) (need : Nat) : ((Shutdown t need).1 : Int) ≤ max 0 t := by
  unfold Shutdown
  split_ifs with h1 h2
  · simp
  · simp only [le_max_iff]
    right
    omega
  · simp only [Int.toNat_eq_max, le_max_iff]
    rcases le_total t 0 with h | h
    · left; simp [h]
    · right; simp [h]

theorem step_phase_origin (h : Harness) (e : Event)
    (hp : (step h e).phase = Phase.Draining ∨ (step h e).phase = Phase.Stopped) :
    (h.phase = Phase.Draining ∨ h.phase = Phase.Stopped) ∨ e = Event.signal Signal.interrupt := by
  unfold step at hp
  by_cases ha : h.alive = true
  · simp only [ha, not_true_eq_false, if_false] at hp
    cases e with
    | serveReturned err => left; simpa using hp
    | signal s =>
      cases s with
      | interrupt => right; rfl
      | other => left; simpa using hp
    | shutdownReturns need =>
      left
      cases hph : h.phase <;> cases hc : h.ctxTimeout <;> simp_all
  · simp only [ha] at hp
    left
    simpa using hp

theorem foldl_phase_origin (evs : List Event) :
    ∀ h : Harness,
      ((evs.foldl step h).phase = Phase.Draining ∨ (evs.foldl step h).phase = Phase.Stopped) →
      (h.phase = Phase.Draining ∨ h.phase = Phase.Stopped) ∨ Event.signal Signal.interrupt ∈ evs := by
  induction evs with
  | nil => intro h hp; left; simpa using hp
  | cons e evs ih =>
    intro h hp
    rw [List.foldl_cons] at hp
    rcases ih (step h e) hp with h1 | h1
    · rcases step_phase_origin h e h1 with h2 | h2
      · left; exact h2
      · right; rw [h2]; exact List.mem_cons_self _ _
    · right; exact List.mem_cons_of_mem _ h1

theorem foldl_serveReturned (errs : List String) :
    ∀ h : Harness, h.alive = true →
      (errs.map Event.serveReturned).foldl step h =
        { h with log := h.log ++ errs.map (fun e => e ++ "\n") } := by
  induction errs with
  | nil => intro h _; simp
  | cons e errs ih =>
    intro h ha
    rw [List.map_cons, List.foldl_cons]
    have hs : step h (Event.serveReturned e) = { h with log := h.log ++ [e ++ "\n"] } := by
      simp [step, ha]
    rw [hs, ih _ (by simpa [Harness.alive] using ha)]
    simp

theorem step_exited (h : Harness) (e : Event) (he : h.exit ≠ none) :
    step h e = h := by
  have : h.alive = false := by
    cases hx : h.exit with
    | none => exact absurd hx he
    | some c => simp [Harness.alive, hx]
  simp [step, this]

/-! ## The claims -/

/-- Claim C1. For every request that reaches `GetActionRequest` (whatever its path,
route variables, headers or body) and every sixteen bytes the generator draws,
the handler returns without panic, the response has status 200, and its body
parses as the JSON object with `id` equal to the string form of the generated
version-4 UUID, a string of 36 characters and so non-empty, and with `action`
equal to the object with `name` "rebootDevice" and `serial` "testSerial". -/
theorem GetActionRequest_status_and_body (L : Lib) (r : Request) (raw : UUID)
    (rest : List (Option UUID)) :
    (GetActionRequest L ResponseWriter.fresh r ⟨some raw :: rest⟩).panic = none
    ∧ (GetActionRequest L ResponseWriter.fresh r ⟨some raw :: rest⟩).w.response.status = 200
    ∧ raw.v4.String ≠ ""
    ∧ raw.v4.String.length = 36
    ∧ JSON.parse (GetActionRequest L ResponseWriter.fresh r ⟨some raw :: rest⟩).w.response.body =
        some (JSON.obj [("id", JSON.str raw.v4.String),
          ("action", JSON.obj [("name", JSON.str "rebootDevice"),
            ("serial", JSON.str "testSerial")])]) := by
  refine ⟨rfl, rfl, UUID_String_ne_empty _, UUID_String_length _, ?_⟩
  have hb : (GetActionRequest L ResponseWriter.fresh r ⟨some raw :: rest⟩).w.response.body =
      EncodeText L.escapeBF (getRecord raw.v4.String) := by
    simp [GetActionRequest, NewActionRequest_draw, ResponseWriter.Write, ResponseWriter.WriteHeader,
      ResponseWriter.fresh, ResponseWriter.response, getRecord]
  rw [hb, parse_EncodeText]
  rfl

/-- Claim C2, the behaviour of the code at the failing input: the request
`DELETE /action/42` is routed to `DeleteActionRequest` with the route variable
`id` bound to "42", and the confirmation line it logs is "Action # can be
removed", without the 42, because the handler reads the key "ID". -/
theorem DeleteActionRequest_logs_empty_id :
    matchPath "/action/{id}" "/action/42" = some [("id", "42")]
    ∧ (serve exampleLib ResponseWriter.fresh (exampleRequest "DELETE" "/action/42") ⟨[]⟩).log =
      ["10.0.0.7:51234 DELETE /action/42\n",
       "[] unsupported protocol scheme \"\"\n",
       "Action # can be removed\n"]
    ∧ "Action #42 can be removed\n" ∉
        (serve exampleLib ResponseWriter.fresh (exampleRequest "DELETE" "/action/42") ⟨[]⟩).log := by
  decide

/-- Claim C3. For every request that reaches `DeleteActionRequest` and every state
of the entropy source, the handler returns without panic, the response has
status 200 and an empty body (no byte is written), and the entropy source is
untouched; with no route variable at all the id reads as the empty string and the
handler still answers 200. -/
theorem DeleteActionRequest_always_200 (L : Lib) (r : Request) (g : Rand) :
    (DeleteActionRequest L ResponseWriter.fresh r g).panic = none
    ∧ (DeleteActionRequest L ResponseWriter.fresh r g).w.response.status = 200
    ∧ (DeleteActionRequest L ResponseWriter.fresh r g).w.response.body = ""
    ∧ (DeleteActionRequest L ResponseWriter.fresh r g).w = ResponseWriter.fresh.WriteHeader 200
    ∧ (DeleteActionRequest L ResponseWriter.fresh r g).rand = g
    ∧ mapGet [] "ID" = ""
    ∧ (DeleteActionRequest L ResponseWriter.fresh { r with Vars := [] } g).log =
        [L.dumpRequestOut { r with Vars := [] } ++ "\n", "Action # can be removed\n"]
    ∧ (DeleteActionRequest L ResponseWriter.fresh { r with Vars := [] } g).w.response.status = 200 :=
  ⟨rfl, rfl, rfl, rfl, rfl, rfl, rfl, rfl⟩

/-- Claim C4 as stated fails: after `GetActionRequest` has served a request the
header map of the response holds no `Content-Type`, so the handler did not mark
the response as `application/json`. -/
theorem GetActionRequest_content_type_unset :
    (GetActionRequest exampleLib ResponseWriter.fresh (exampleRequest "GET" "/action/1")
        ⟨[some zeroBytes]⟩).w.response.header.lookup "Content-Type" = none
    ∧ (GetActionRequest exampleLib ResponseWriter.fresh (exampleRequest "GET" "/action/1")
        ⟨[some zeroBytes]⟩).w.response.header.lookup "Content-Type" ≠ some "application/json" := by
  decide

/-- Claim C4, amended. Neither handler touches the header map: whatever the writer,
the request and the entropy source, `GetActionRequest` and `DeleteActionRequest`
leave the headers as they found them, so on the writer the server supplies
neither response has a `Content-Type` set by its handler. -/
theorem handlers_leave_headers (L : Lib) (w : ResponseWriter) (r : Request) (g : Rand) :
    (GetActionRequest L w r g).w.header = w.header
    ∧ (DeleteActionRequest L w r g).w.header = w.header
    ∧ (GetActionRequest L ResponseWriter.fresh r g).w.response.header.lookup "Content-Type" = none
    ∧ (DeleteActionRequest L ResponseWriter.fresh r g).w.response.header.lookup "Content-Type"
        = none := by
  have hget : ∀ w : ResponseWriter, (GetActionRequest L w r g).w.header = w.header := by
    intro w
    rcases g with ⟨_ | ⟨x, rest⟩⟩
    · rfl
    · cases x
      · rfl
      · simp only [GetActionRequest, NewActionRequest_draw, ResponseWriter.Write,
          ResponseWriter.WriteHeader]
        split <;> rfl
  have hdel : ∀ w : ResponseWriter, (DeleteActionRequest L w r g).w.header = w.header := by
    intro w
    simp only [DeleteActionRequest, ResponseWriter.WriteHeader]
    split <;> rfl
  refine ⟨hget w, hdel w, ?_, ?_⟩
  · simp only [ResponseWriter.response, hget]
    rfl
  · simp only [ResponseWriter.response, hdel]
    rfl

/-- Claim C5. `GetActionRequest` ignores the request: run on the same writer with
two requests and two entropy sources whose next draw is the same sixteen bytes,
it leaves the same writer (status, headers, body), logs the same line and
reports the same outcome; on any one entropy source the whole result is the same
for any two requests. The line logged is "Request Action #" followed by the id
and " \n", and the body is the JSON encoding of the record with that same id. -/
theorem GetActionRequest_ignores_request (L : Lib) (w : ResponseWriter) (r1 r2 : Request)
    (raw : UUID) (rest1 rest2 : List (Option UUID)) (g : Rand) :
    (GetActionRequest L w r1 ⟨some raw :: rest1⟩).w = (GetActionRequest L w r2 ⟨some raw :: rest2⟩).w
    ∧ (GetActionRequest L w r1 ⟨some raw :: rest1⟩).w.response =
        (GetActionRequest L w r2 ⟨some raw :: rest2⟩).w.response
    ∧ (GetActionRequest L w r1 ⟨some raw :: rest1⟩).log =
        (GetActionRequest L w r2 ⟨some raw :: rest2⟩).log
    ∧ (GetActionRequest L w r1 ⟨some raw :: rest1⟩).panic =
        (GetActionRequest L w r2 ⟨some raw :: rest2⟩).panic
    ∧ GetActionRequest L w r1 g = GetActionRequest L w r2 g
    ∧ (GetActionRequest L w r1 ⟨some raw :: rest1⟩).log =
        ["Request Action #" ++ raw.v4.String ++ " \n"]
    ∧ (GetActionRequest L ResponseWriter.fresh r1 ⟨some raw :: rest1⟩).w.response.body =
        EncodeText L.escapeBF
          { ID := raw.v4.String, Action := { Name := "rebootDevice", Serial := "testSerial" } }
    ∧ (GetActionRequest L ResponseWriter.fresh r1 ⟨some raw :: rest1⟩).w.response.status = 200 := by
  refine ⟨rfl, rfl, rfl, rfl, rfl, rfl, ?_, rfl⟩
  simp [GetActionRequest, NewActionRequest_draw, ResponseWriter.Write, ResponseWriter.WriteHeader,
    ResponseWriter.fresh, ResponseWriter.response]

/-- Claim C6. For all strings `serial` and `name`: when the generator draws sixteen
bytes, `NewActionRequest(serial, name)` returns the record whose `Action.Name` is
`name`, whose `Action.Serial` is `serial` and whose `ID` is the string form of
the version-4 UUID made of those bytes, and the entropy source has advanced by
exactly that one draw; on every entropy source the source it leaves is the one a
single read leaves; it returns a record exactly when that read succeeds, whatever
`serial` and `name` are, the empty strings included. -/
theorem NewActionRequest_contract (serial name : String) (g : Rand) :
    (∀ (raw : UUID) (rest : List (Option UUID)),
      NewActionRequest serial name ⟨some raw :: rest⟩ =
        (.ok { ID := raw.v4.String, Action := { Name := name, Serial := serial } }, ⟨rest⟩))
    ∧ (NewActionRequest serial name g).2 = g.read.2
    ∧ ((∃ a, (NewActionRequest serial name g).1 = .ok a) ↔ ∃ raw, g.read.1 = some raw)
    ∧ (∀ raw, g.read.1 = some raw →
        (NewActionRequest serial name g).1 =
          .ok { ID := raw.v4.String, Action := { Name := name, Serial := serial } })
    ∧ (∀ (raw : UUID) (rest : List (Option UUID)),
        NewActionRequest "" "" ⟨some raw :: rest⟩ =
          (.ok { ID := raw.v4.String, Action := { Name := "", Serial := "" } }, ⟨rest⟩)) := by
  refine ⟨fun raw rest => rfl, ?_, ?_, ?_, fun raw rest => rfl⟩
  · rcases g with ⟨_ | ⟨x, rest⟩⟩
    · rfl
    · cases x <;> rfl
  · rcases g with ⟨_ | ⟨x, rest⟩⟩
    · simp [NewActionRequest, NewV4, Rand.read, Must]
    · cases x <;> simp [NewActionRequest, NewV4, Rand.read, Must]
  · intro raw h
    rcases g with ⟨_ | ⟨x, rest⟩⟩
    · simp [Rand.read] at h
    · cases x
      · simp [Rand.read] at h
      · simp [Rand.read] at h
        subst h
        rfl

/-- The witness of claim C6's inner hypothesis: on a source whose next read gives
sixteen zero bytes, the record for ("testSerial", "rebootDevice") is returned. -/
theorem NewActionRequest_contract_witness :
    (⟨[some zeroBytes]⟩ : Rand).read.1 = some zeroBytes
    ∧ (NewActionRequest "testSerial" "rebootDevice" ⟨[some zeroBytes]⟩).1 =
        .ok { ID := "00000000-0000-4000-8000-000000000000",
              Action := { Name := "rebootDevice", Serial := "testSerial" } } :=
  ⟨rfl, (NewActionRequest_contract "testSerial" "rebootDevice" ⟨[some zeroBytes]⟩).2.2.2.1
    zeroBytes rfl⟩

/-- Claim C7 as stated fails: for the request `GET /action/1` and sixteen zero
bytes drawn, the body written is not the bare JSON text, because the encoder ends
it with a newline. -/
theorem GetActionRequest_body_has_newline :
    (GetActionRequest exampleLib ResponseWriter.fresh (exampleRequest "GET" "/action/1")
        ⟨[some zeroBytes]⟩).w.response.body ≠
      "\x7b\"id\":\"00000000-0000-4000-8000-000000000000\",\"action\":\x7b\"name\":\"rebootDevice\",\"serial\":\"testSerial\"\x7d\x7d"
    ∧ (GetActionRequest exampleLib ResponseWriter.fresh (exampleRequest "GET" "/action/1")
        ⟨[some zeroBytes]⟩).w.response.body =
      "\x7b\"id\":\"00000000-0000-4000-8000-000000000000\",\"action\":\x7b\"name\":\"rebootDevice\",\"serial\":\"testSerial\"\x7d\x7d\n" := by
  decide

/-- Claim C7, amended. For every record `r` the text `Encode` writes parses as the
object with the keys `id` and `action` in that order, where `action` is the
object with the key `name` followed by the key `serial` exactly when
`r.Action.Serial` is not empty (so `id`, `action` and `name` are present even
for empty strings); and for the record `GetActionRequest` builds, the body is the
text `{"id":"<uuid>","action":{"name":"rebootDevice","serial":"testSerial"}}`
followed by one newline. -/
theorem Encode_keys_and_get_body (L : Lib) (bf : Bool) (r : ActionRequest) (req : Request)
    (raw : UUID) (rest : List (Option UUID)) :
    JSON.parse (EncodeText bf r) =
      some (JSON.obj [("id", JSON.str r.ID),
        ("action", JSON.obj (("name", JSON.str r.Action.Name) ::
          (if r.Action.Serial = "" then [] else [("serial", JSON.str r.Action.Serial)])))])
    ∧ JSON.parse (EncodeText bf { ID := "", Action := { Name := "", Serial := "" } }) =
        some (JSON.obj [("id", JSON.str ""), ("action", JSON.obj [("name", JSON.str "")])])
    ∧ (GetActionRequest L ResponseWriter.fresh req ⟨some raw :: rest⟩).w.response.body =
        "\x7b\"id\":\"" ++ raw.v4.String ++
          "\",\"action\":\x7b\"name\":\"rebootDevice\",\"serial\":\"testSerial\"\x7d\x7d" ++ "\n" := by
  refine ⟨?_, ?_, ?_⟩
  · rw [parse_EncodeText]
    simp only [ActionRequest.toJSON, Operation.toJSON, String_length_zero_iff]
  · rw [parse_EncodeText]
    rfl
  · show (GetActionRequest L ResponseWriter.fresh req ⟨some raw :: rest⟩).w.body = _
    rw [GetActionRequest_body, Marshal_getRecord]

/-- Claim C8. For every handler `h`, writer, request and entropy source, serving
through `logRequest(h)` logs the line made of the request's remote address,
method and URL (separated by single spaces, ended by a newline) followed by
exactly the lines `h` logs on that same writer, request and entropy source, and
the writer, the response, the entropy source and the outcome are those of that
one run of `h`. -/
theorem logRequest_logs_then_delegates (L : Lib) (h : Handler) (w : ResponseWriter)
    (r : Request) (g : Rand) :
    (logRequest L h w r g).log =
      (r.RemoteAddr ++ " " ++ r.Method ++ " " ++ L.urlString r.URL ++ "\n") :: (h w r g).log
    ∧ (logRequest L h w r g).w = (h w r g).w
    ∧ (logRequest L h w r g).w.response.status = (h w r g).w.response.status
    ∧ (logRequest L h w r g).w.response.body = (h w r g).w.response.body
    ∧ (logRequest L h w r g).rand = (h w r g).rand
    ∧ (logRequest L h w r g).panic = (h w r g).panic :=
  ⟨rfl, rfl, rfl, rfl, rfl, rfl⟩

/-- Claim C9 as stated fails: the request `GET /other//x` matches neither route,
yet the response is neither the not-found nor the method-not-allowed response:
the router answers a path that is not in canonical form with a redirect (status
301) to the cleaned path. -/
theorem serve_redirects_unclean_path :
    matchPath "/action/{id}" "/other//x" = none
    ∧ (serve exampleLib ResponseWriter.fresh (exampleRequest "GET" "/other//x") ⟨[]⟩).w.response =
        { status := 301, header := [("Location", "/other/x")], body := "" }
    ∧ (serve exampleLib ResponseWriter.fresh (exampleRequest "GET" "/other//x")
        ⟨[]⟩).w.response.status ≠ 404
    ∧ (serve exampleLib ResponseWriter.fresh (exampleRequest "GET" "/other//x")
        ⟨[]⟩).w.response.status ≠ 405 := by
  decide

/-- Claim C9, amended. The route table has exactly two routes, `GET /action/{id}`
and `DELETE /action/{id}`. For every request whose path is in canonical form
(`cleanPath` leaves it unchanged) and whose method and path match neither route,
whatever the two registered handlers are, neither is invoked: the logging
middleware logs the request line and nothing else is logged, the entropy source
is untouched, and the response is the router's default one, method-not-allowed
(status 405, empty body) when the path matches the template, not-found (status
404, body "404 page not found\n") otherwise. A path matches the
template exactly when it is `/action/` followed by a non-empty segment without a
slash. -/
theorem unmatched_request_gets_default (L : Lib) (get del : Handler) (r : Request) (g : Rand)
    (hclean : cleanPath r.URL.Path = r.URL.Path)
    (hget : ¬ (r.Method = "GET" ∧ (matchPath "/action/{id}" r.URL.Path).isSome = true))
    (hdel : ¬ (r.Method = "DELETE" ∧ (matchPath "/action/{id}" r.URL.Path).isSome = true)) :
    (routesOf get del).map (fun rt => (rt.methods, rt.template)) =
      [(["GET"], "/action/{id}"), (["DELETE"], "/action/{id}")]
    ∧ ((matchPath "/action/{id}" r.URL.Path).isSome = true ↔
        ("/action/".data.isPrefixOf r.URL.Path.data = true ∧ r.URL.Path.data.drop 8 ≠ []
          ∧ '/' ∉ r.URL.Path.data.drop 8))
    ∧ serveWith L get del ResponseWriter.fresh r g =
      { w := if (matchPath "/action/{id}" r.URL.Path).isSome = true
             then ResponseWriter.fresh.WriteHeader 405
             else httpError ResponseWriter.fresh "404 page not found" 404,
        rand := g,
        log := [requestLine L r],
        panic := none }
    ∧ ((serveWith L get del ResponseWriter.fresh r g).w.response =
          { status := 405, header := [], body := "" }
       ∨ (serveWith L get del ResponseWriter.fresh r g).w.response =
          { status := 404,
            header := [("X-Content-Type-Options", "nosniff"),
                       ("Content-Type", "text/plain; charset=utf-8")],
            body := "404 page not found\n" }) := by
  have key : serveWith L get del ResponseWriter.fresh r g =
      { w := if (matchPath "/action/{id}" r.URL.Path).isSome = true
             then ResponseWriter.fresh.WriteHeader 405
             else httpError ResponseWriter.fresh "404 page not found" 404,
        rand := g,
        log := [requestLine L r],
        panic := none } := by
    unfold serveWith logRequest
    simp only [routerServeHTTP_dispatch L get del ResponseWriter.fresh r g hclean]
    cases hm : matchPath "/action/{id}" r.URL.Path with
    | none => simp [NotFoundHandler]
    | some vars =>
      have hg : r.Method ≠ "GET" := fun h => hget ⟨h, by simp [hm]⟩
      have hd : r.Method ≠ "DELETE" := fun h => hdel ⟨h, by simp [hm]⟩
      simp [hg, hd, methodNotAllowedHandler]
  refine ⟨rfl, ?_, key, ?_⟩
  · rw [matchPath_action]
    split_ifs with hc
    · exact ⟨fun _ => hc, fun _ => rfl⟩
    · exact ⟨fun hf => absurd hf (by decide), fun hf => absurd hf hc⟩
  rw [key]
  by_cases hm : (matchPath "/action/{id}" r.URL.Path).isSome = true
  · left
    simp only [hm, if_true]
    rfl
  · right
    simp only [hm]
    rfl

/-- The witness of claim C9: `POST /action/1` and `GET /other` have canonical
paths and match neither route; the first is answered 405 (its path matches, its
method does not), the second 404. -/
theorem unmatched_request_gets_default_witness :
    cleanPath "/action/1" = "/action/1"
    ∧ ¬ ("POST" = "GET" ∧ (matchPath "/action/{id}" "/action/1").isSome = true)
    ∧ ¬ ("POST" = "DELETE" ∧ (matchPath "/action/{id}" "/action/1").isSome = true)
    ∧ serveWith exampleLib (GetActionRequest exampleLib) (DeleteActionRequest exampleLib)
        ResponseWriter.fresh (exampleRequest "POST" "/action/1") ⟨[]⟩ =
      { w := if (matchPath "/action/{id}" "/action/1").isSome = true
             then ResponseWriter.fresh.WriteHeader 405
             else httpError ResponseWriter.fresh "404 page not found" 404,
        rand := ⟨[]⟩,
        log := [requestLine exampleLib (exampleRequest "POST" "/action/1")],
        panic := none }
    ∧ (serveWith exampleLib (GetActionRequest exampleLib) (DeleteActionRequest exampleLib)
        ResponseWriter.fresh (exampleRequest "POST" "/action/1") ⟨[]⟩).w.response.status = 405
    ∧ cleanPath "/other" = "/other"
    ∧ (serveWith exampleLib (GetActionRequest exampleLib) (DeleteActionRequest exampleLib)
        ResponseWriter.fresh (exampleRequest "GET" "/other") ⟨[]⟩).w.response.status = 404 :=
  ⟨by decide, by decide, by decide,
    (unmatched_request_gets_default exampleLib (GetActionRequest exampleLib)
      (DeleteActionRequest exampleLib) (exampleRequest "POST" "/action/1") ⟨[]⟩
      (by decide) (by decide) (by decide)).2.2.1,
    by decide, by decide, by decide⟩

/-- Claim C10. Start the harness with flags that parse. Whatever errors the serving
goroutine logs before and after, once the interrupt is delivered and
`srv.Shutdown` returns (with nil or with the deadline error, as `need` decides)
the harness is in `Stopped` with exit code 0, its log is the serve errors
followed by the one line "shutting down", and no later event changes anything;
the context given to `Shutdown` expires after the grace duration, which is 15
seconds when the flag is absent, and `Shutdown` ran no longer than that
duration (not at all when the duration is not positive). And for every run at
all, bind and serve errors included, the harness is in `Draining` or `Stopped`
only if an interrupt was among the events. -/
theorem harness_interrupt_reaches_stopped (f : Flags) (hf : f ≠ Flags.malformed)
    (before during : List String) (need : Nat) (evs : List Event) (e : Event) :
    (run f (interruptedRun before during need)).phase = Phase.Stopped
    ∧ (run f (interruptedRun before during need)).exit = some 0
    ∧ (run f (interruptedRun before during need)).log =
        (before ++ during).map (fun err => err ++ "\n") ++ ["shutting down\n"]
    ∧ step (run f (interruptedRun before during need)) e = run f (interruptedRun before during need)
    ∧ (run f (interruptedRun before during need)).ctxTimeout = some (boot f).wait
    ∧ (boot Flags.absent).wait = 15 * 1000000000
    ∧ (∀ d, (boot (Flags.given d)).wait = d)
    ∧ (∃ t, (run f (interruptedRun before during need)).drainTime = some t
        ∧ (t : Int) ≤ max 0 (boot f).wait)
    ∧ (run f (before.map Event.serveReturned)).phase = Phase.Serving
    ∧ (run f (before.map Event.serveReturned ++ Event.signal Signal.interrupt ::
          during.map Event.serveReturned)).phase = Phase.Draining
    ∧ (((run f evs).phase = Phase.Draining ∨ (run f evs).phase = Phase.Stopped) →
        Event.signal Signal.interrupt ∈ evs) := by
  have hboot : (boot f).phase = Phase.Serving ∧ (boot f).alive = true
      ∧ (boot f).log = [] := by
    cases f with
    | absent => exact ⟨rfl, rfl, rfl⟩
    | given d => exact ⟨rfl, rfl, rfl⟩
    | malformed => exact absurd rfl hf
  obtain ⟨hph, hal, hlog⟩ := hboot
  have h1 : run f (before.map Event.serveReturned) =
      { boot f with log := before.map (fun err => err ++ "\n") } := by
    unfold run
    rw [foldl_serveReturned before _ hal, hlog]
    rfl
  have h2 : run f (before.map Event.serveReturned ++ Event.signal Signal.interrupt ::
      during.map Event.serveReturned) =
      { boot f with phase := Phase.Draining, ctxTimeout := some (boot f).wait,
                    log := (before ++ during).map (fun err => err ++ "\n") } := by
    have h1' := h1
    unfold run at h1' ⊢
    rw [List.foldl_append, h1', List.foldl_cons]
    have hs : step { boot f with log := before.map (fun err => err ++ "\n") }
        (Event.signal Signal.interrupt) =
        { boot f with phase := Phase.Draining, ctxTimeout := some (boot f).wait,
                      log := before.map (fun err => err ++ "\n") } := by
      have hal' : (boot f).exit.isNone = true ∧ (boot f).killed = false := by
        simpa [Harness.alive] using hal
      simp [step, Harness.alive, hal'.1, hal'.2, hph]
    rw [hs, foldl_serveReturned during _ (by simpa [Harness.alive] using hal)]
    simp
  have h3 : run f (interruptedRun before during need) =
      { boot f with phase := Phase.Stopped, ctxTimeout := some (boot f).wait,
                    drainTime := some (Shutdown (boot f).wait need).1,
                    log := (before ++ during).map (fun err => err ++ "\n") ++ ["shutting down\n"],
                    exit := some 0 } := by
    have h2' := h2
    unfold run at h2' ⊢
    unfold interruptedRun
    rw [← List.cons_append, ← List.append_assoc, List.foldl_append, h2']
    have hal' : (boot f).exit.isNone = true ∧ (boot f).killed = false := by
      simpa [Harness.alive] using hal
    simp [step, Harness.alive, hal'.1, hal'.2]
  refine ⟨?_, ?_, ?_, ?_, ?_, rfl, fun d => rfl, ?_, ?_, ?_, ?_⟩
  · rw [h3]
  · rw [h3]
  · rw [h3]
  · apply step_exited
    rw [h3]; simp
  · rw [h3]
  · exact ⟨(Shutdown (boot f).wait need).1, by rw [h3], Shutdown_bounded _ _⟩
  · rw [h1]; exact hph
  · rw [h2]
  · intro hp
    rcases foldl_phase_origin evs (boot f) hp with hb | hb
    · rw [hph] at hb
      rcases hb with hb | hb <;> exact absurd hb (by decide)
    · exact hb

/-- The witness of claim C10: no flag on the command line, a failed bind, the
interrupt, the server-closed error, and a drain that needs 20 seconds. The run
ends in `Stopped` with exit code 0 after `Shutdown` ran for 15 seconds. -/
theorem harness_interrupt_reaches_stopped_witness :
    Flags.absent ≠ Flags.malformed
    ∧ (run Flags.absent (interruptedRun ["listen tcp 0.0.0.0:8000: bind: address already in use"]
        ["http: Server closed"] 20000000000)).phase = Phase.Stopped
    ∧ (run Flags.absent (interruptedRun ["listen tcp 0.0.0.0:8000: bind: address already in use"]
        ["http: Server closed"] 20000000000)).drainTime = some 15000000000 :=
  ⟨by decide,
    (harness_interrupt_reaches_stopped Flags.absent (by decide)
      ["listen tcp 0.0.0.0:8000: bind: address already in use"] ["http: Server closed"]
      20000000000 [] (Event.signal Signal.other)).1,
    by decide⟩

end DeviceKeeper
